import Mathlib

/-!
Shallow embedding of the restaurant-review Solana program
(`src/lib.rs`, `src/state.rs`) and verification of its specification.

The program's two instruction handlers, `add_review` and `update_review`,
are translated as pure state-passing functions over a list of account
records.  Host-platform primitives that the program calls but does not
define (program-derived-address derivation, system-program account
creation, borsh serialization) are modelled from the spec's description
of those collaborators, at the call shapes this program uses.
-/

namespace ReviewProgram

/-- Modelled from the spec: addresses ("pubkeys") of the host ledger.
The repository never inspects address bytes; it only compares addresses
for equality and derives canonical addresses from (identity, title,
program namespace).  The spec (§3, §8) treats the derivation as
deterministic and collision-free, so the derived address is modelled as
a constructor applied to exactly the seed data this program passes
(`[initializer.key, title]` plus the program id), which makes the
derivation injective by construction. -/
inductive Pubkey where
  | base : Nat → Pubkey
  | derived : Pubkey → List Nat → Pubkey → Pubkey
deriving DecidableEq, Repr

/-- Modelled from the spec: the host runtime's per-call account handle
(`AccountInfo`): an address, whether the account authorized (signed) the
call, the owning program, and the raw data buffer.  Lamport balances are
outside the claims and are not modelled. -/
structure AccountInfo where
  key : Pubkey
  is_signer : Bool
  owner : Pubkey
  data : List Nat
deriving DecidableEq, Repr

/-- The persisted record, from `src/state.rs` (`AccountState`).  Rust
`String` fields are modelled as their UTF-8 byte sequences (`List Nat`),
and `u8` as `Nat`. -/
structure AccountState where
  is_initialized : Bool
  rating : Nat
  description : List Nat
  title : List Nat
deriving DecidableEq, Repr

/-- Modelled from the spec (§6): little-endian 4-byte encoding of a
length, as used by borsh's length-prefixed strings. -/
def u32le (n : Nat) : List Nat :=
  [n % 256, n / 256 % 256, n / 65536 % 256, n / 16777216 % 256]

/-- Modelled from the spec (§6): borsh serialization of `AccountState`,
`{is_initialized: 1 byte, rating: 1 byte, description: length-prefixed
bytes, title: length-prefixed bytes}`, the field order of the struct in
`src/state.rs`. -/
def serialize (a : AccountState) : List Nat :=
  [if a.is_initialized then 1 else 0, a.rating]
    ++ u32le a.description.length ++ a.description
    ++ u32le a.title.length ++ a.title

/-- Read a borsh `bool`: one byte that must be 0 or 1. -/
def readBool : List Nat → Option (Bool × List Nat)
  | 0 :: rest => some (false, rest)
  | 1 :: rest => some (true, rest)
  | _ => none

/-- Read a borsh `u32` length, little-endian. -/
def readU32 : List Nat → Option (Nat × List Nat)
  | a :: b :: c :: d :: rest =>
      some (a + 256 * b + 65536 * c + 16777216 * d, rest)
  | _ => none

/-- Read `n` raw bytes. -/
def readBytes (n : Nat) (l : List Nat) : Option (List Nat × List Nat) :=
  if n ≤ l.length then some (l.take n, l.drop n) else none

/-- Modelled from the spec (§6): borsh deserialization of
`AccountState`, returning the record and the unread remainder of the
buffer. -/
def deserialize (l : List Nat) : Option (AccountState × List Nat) := do
  let (b, l1) ← readBool l
  match l1 with
  | r :: l2 => do
      let (dn, l3) ← readU32 l2
      let (d, l4) ← readBytes dn l3
      let (tn, l5) ← readU32 l4
      let (t, l6) ← readBytes tn l5
      some (⟨b, r, d, t⟩, l6)
  | [] => none

/-- Modelled from the spec: `try_from_slice_unchecked` from the Solana
SDK — borsh deserialization that ignores trailing bytes ("unchecked"
skips the all-bytes-consumed check). -/
def try_from_slice_unchecked (l : List Nat) : Option AccountState :=
  (deserialize l).map Prod.fst

/-- Modelled from the spec: serializing into a fixed mutable buffer
(`serialize(&mut &mut pda_account.data.borrow_mut()[..])`): the
serialized bytes overwrite the start of the buffer, bytes past the
serialized length keep their old values, and a record longer than the
buffer is an error. -/
def serialize_into (bytes : List Nat) (buf : List Nat) : Option (List Nat) :=
  if bytes.length ≤ buf.length then some (bytes ++ buf.drop bytes.length)
  else none

/-- Modelled from the spec (§4.1, §6): the host's canonical-address
derivation `find_canonical_address`, at the seed shape this program
always uses — `[initializer.key.as_ref(), title.as_bytes()]` under the
program id.  Deterministic; the disambiguator ("bump") search is
abstracted to its fixed starting value since no claim depends on it. -/
def find_program_address (identity : Pubkey) (title : List Nat)
    (program_id : Pubkey) : Pubkey × Nat :=
  (Pubkey.derived identity title program_id, 255)

/-- `ReviewError` from `src/state.rs`. -/
inductive ReviewError where
  | UninitializedAccount
  | InvalidRating
  | InvalidPDA
deriving DecidableEq, Repr

/-- The program errors this code surfaces.  `MissingRequiredSignuture`
keeps the source's spelling; `Custom` wraps `ReviewError` as the `From`
impl in `src/state.rs` does.  `AccountAlreadyInUse` is the system
program's failure when `create_account` targets an account that already
exists; `BorshWriteOverflow` is the serialization failure when the
record does not fit the buffer. -/
inductive ProgErr where
  | NotEnoughAccountKeys
  | MissingRequiredSignuture
  | InvalidArgument
  | InvalidRating
  | AccountAlreadyInitialized
  | IllegalOwner
  | AccountAlreadyInUse
  | BorshWriteOverflow
  | Custom : ReviewError → ProgErr
deriving DecidableEq, Repr

/-- Outcome of a handler call: success, a returned `ProgramError`, or a
Rust panic (the source calls `.unwrap()` on deserialization). -/
inductive Outcome where
  | ok
  | err : ProgErr → Outcome
  | panicked
deriving DecidableEq, Repr

/-- `let account_len: usize = 1000;` in `add_review`. -/
def account_len : Nat := 1000

/-- Modelled from the spec (§6): the system program's `create_account`,
invoked by `add_review` with the derivation proof.  It succeeds only on
an account that does not exist yet (empty data), allocating a zeroed
buffer of the requested size owned by the invoking program. -/
def create_account (pda : AccountInfo) (program_id : Pubkey) :
    Option AccountInfo :=
  if pda.data.isEmpty then
    some { pda with owner := program_id, data := List.replicate account_len 0 }
  else none

/-- `add_review` from `src/lib.rs` (lines 45–113), translated branch by
branch: the accounts iterator (`next_account_info` three times), the
signer check exactly as written (`if initializer.is_signer` — note the
missing negation in the source), the PDA derivation and comparison, the
rating bound check, `create_account` via `invoke_signed`, the
deserialize-and-unwrap of the fresh account, the `is_initialized`
check, field population, and the final serialize into the account
buffer.  Returns the outcome and the post-call account list. -/
def add_review (program_id : Pubkey) (accounts : List AccountInfo)
    (title : List Nat) (rating : Nat) (description : List Nat) :
    Outcome × List AccountInfo :=
  match accounts with
  | initializer :: pda_account :: system_program :: rest =>
    if initializer.is_signer then
      (.err .MissingRequiredSignuture, accounts)
    else
      let pda := (find_program_address initializer.key title program_id).1
      if pda ≠ pda_account.key then
        (.err .InvalidArgument, accounts)
      else if 10 < rating ∨ rating < 1 then
        (.err .InvalidRating, accounts)
      else
        match create_account pda_account program_id with
        | none => (.err .AccountAlreadyInUse, accounts)
        | some pda1 =>
          let mid := initializer :: pda1 :: system_program :: rest
          match try_from_slice_unchecked pda1.data with
          | none => (.panicked, mid)
          | some account_data =>
            if account_data.is_initialized then
              (.err .AccountAlreadyInitialized, mid)
            else
              let account_data1 : AccountState :=
                { account_data with
                    title := title, description := description,
                    rating := rating, is_initialized := true }
              match serialize_into (serialize account_data1) pda1.data with
              | none => (.err .BorshWriteOverflow, mid)
              | some d2 =>
                (.ok, initializer :: { pda1 with data := d2 }
                        :: system_program :: rest)
  | _ => (.err .NotEnoughAccountKeys, accounts)

/-- `update_review` from `src/lib.rs` (lines 116–165), translated branch
by branch: two `next_account_info` calls, the owner check, the (here
correctly negated) signer check, deserialize-and-unwrap of the existing
account data, PDA re-derivation from the *stored* title
(`account_data.title`), the `is_initialized` check, the rating bound
check, the in-place mutation of description and rating only, and the
final serialize.  The command's title parameter is received but unused
(`_title` in the source). -/
def update_review (program_id : Pubkey) (accounts : List AccountInfo)
    (_title : List Nat) (rating : Nat) (description : List Nat) :
    Outcome × List AccountInfo :=
  match accounts with
  | initializer :: pda_account :: rest =>
    if pda_account.owner ≠ program_id then
      (.err .IllegalOwner, accounts)
    else if ¬ initializer.is_signer then
      (.err .MissingRequiredSignuture, accounts)
    else
      match try_from_slice_unchecked pda_account.data with
      | none => (.panicked, accounts)
      | some account_data =>
        let pda := (find_program_address initializer.key
                      account_data.title program_id).1
        if pda ≠ pda_account.key then
          (.err (.Custom .InvalidPDA), accounts)
        else if ¬ account_data.is_initialized then
          (.err (.Custom .UninitializedAccount), accounts)
        else if 10 < rating ∨ rating < 1 then
          (.err (.Custom .InvalidRating), accounts)
        else
          let account_data1 : AccountState :=
            { account_data with description := description, rating := rating }
          match serialize_into (serialize account_data1) pda_account.data with
          | none => (.err .BorshWriteOverflow, accounts)
          | some d2 =>
            (.ok, initializer :: { pda_account with data := d2 } :: rest)
  | _ => (.err .NotEnoughAccountKeys, accounts)

/-- The spec's §7 error taxonomy, as the abstraction of the code's
concrete error values.  Within this program `ProgramError::InvalidArgument`
is raised only by `add_review`'s derived-address check and
`ReviewError::InvalidPDA` only by `update_review`'s, so both map to the
spec's `InvalidDerivedAddress` kind; likewise the two rating errors map
to `InvalidRating`. -/
inductive SpecErrorKind where
  | MissingSignature
  | InvalidDerivedAddress
  | InvalidRating
  | AlreadyInitialized
  | UninitializedAccount
  | IllegalOwner
  | Other
deriving DecidableEq, Repr

def specKind : ProgErr → SpecErrorKind
  | .MissingRequiredSignuture => .MissingSignature
  | .InvalidArgument => .InvalidDerivedAddress
  | .InvalidRating => .InvalidRating
  | .AccountAlreadyInitialized => .AlreadyInitialized
  | .IllegalOwner => .IllegalOwner
  | .Custom .InvalidPDA => .InvalidDerivedAddress
  | .Custom .UninitializedAccount => .UninitializedAccount
  | .Custom .InvalidRating => .InvalidRating
  | .NotEnoughAccountKeys => .Other
  | .AccountAlreadyInUse => .Other
  | .BorshWriteOverflow => .Other


/-- Sample program id for concrete instances. -/
def samplePid : Pubkey := .base 7

/-- Sample review title bytes. -/
def sampleTitle : List Nat := [1, 2]

/-- Author account that signed the call. -/
def sampleAuthorSigned : AccountInfo := ⟨.base 3, true, .base 0, []⟩

/-- The same author account, not signing. -/
def sampleAuthorUnsigned : AccountInfo := ⟨.base 3, false, .base 0, []⟩

/-- A fresh (unallocated) slot at the canonical derived address for
(`sampleAuthorSigned`, `sampleTitle`). -/
def samplePdaFresh : AccountInfo :=
  ⟨.derived (.base 3) [1, 2] (.base 7), false, .base 0, []⟩

/-- System-program account handle. -/
def sampleSys : AccountInfo := ⟨.base 1, false, .base 0, []⟩

/-- A stored record: initialized, rating 5, one-byte description. -/
def sampleStoredState : AccountState := ⟨true, 5, [9], [1, 2]⟩

/-- A program-owned slot at the canonical address holding
`sampleStoredState`. -/
def samplePdaStored : AccountInfo :=
  ⟨.derived (.base 3) [1, 2] (.base 7), false, .base 7,
    serialize sampleStoredState⟩

/-- A program-owned slot whose address was derived for a different
author identity (`.base 4`) than the sample author (`.base 3`). -/
def samplePdaOtherAuthor : AccountInfo :=
  ⟨.derived (.base 4) [1, 2] (.base 7), false, .base 7,
    serialize sampleStoredState⟩

set_option maxRecDepth 8000


lemma readBytes_append (l rest : List Nat) :
    readBytes l.length (l ++ rest) = some (l, rest) := by
  simp [readBytes]

lemma u32le_decode (n : Nat) (h : n < 4294967296) :
    n % 256 + 256 * (n / 256 % 256) + 65536 * (n / 65536 % 256)
      + 16777216 * (n / 16777216 % 256) = n := by
  omega

lemma readU32_u32le (n : Nat) (rest : List Nat) (h : n < 4294967296) :
    readU32 (u32le n ++ rest) = some (n, rest) := by
  simp [readU32, u32le, u32le_decode n h]

lemma deserialize_serialize (a : AccountState) (extra : List Nat)
    (hd : a.description.length < 4294967296)
    (ht : a.title.length < 4294967296) :
    deserialize (serialize a ++ extra) = some (a, extra) := by
  rcases a with ⟨b, r, d, t⟩
  cases b <;>
    simp [serialize, deserialize, readBool, readU32_u32le _ _ hd,
      readU32_u32le _ _ ht, readBytes_append, List.append_assoc]

lemma readBool_eq_some {l : List Nat} {b : Bool} {rest : List Nat}
    (h : readBool l = some (b, rest)) :
    l = (if b then 1 else 0) :: rest := by
  unfold readBool at h
  split at h <;> simp_all

lemma readU32_eq_some {l : List Nat} {n : Nat} {rest : List Nat}
    (h : readU32 l = some (n, rest)) :
    ∃ a b c d, l = a :: b :: c :: d :: rest
      ∧ n = a + 256 * b + 65536 * c + 16777216 * d := by
  unfold readU32 at h
  split at h <;> simp_all
  aesop

lemma readBytes_eq_some {n : Nat} {l d rest : List Nat}
    (h : readBytes n l = some (d, rest)) :
    d.length = n ∧ l = d ++ rest := by
  unfold readBytes at h
  split at h
  · next hle =>
      simp only [Option.some.injEq, Prod.mk.injEq] at h
      obtain ⟨h1, h2⟩ := h
      subst h1
      subst h2
      refine ⟨?_, (List.take_append_drop n l).symm⟩
      simp only [List.length_take]
      omega
  · exact absurd h (by simp)

lemma u32le_encode (a b c d : Nat) (ha : a < 256) (hb : b < 256)
    (hc : c < 256) (hd : d < 256) :
    u32le (a + 256 * b + 65536 * c + 16777216 * d) = [a, b, c, d] := by
  simp only [u32le, List.cons.injEq, and_true]
  refine ⟨by omega, by omega, by omega, by omega⟩

lemma serialize_deserialize {bytes : List Nat} {a : AccountState} {rest : List Nat}
    (hb : ∀ x ∈ bytes, x < 256)
    (h : deserialize bytes = some (a, rest)) :
    serialize a ++ rest = bytes := by
  unfold deserialize at h
  cases hrb : readBool bytes with
  | none => simp [hrb] at h
  | some p =>
    rcases p with ⟨b, l1⟩
    simp only [hrb, Option.bind_eq_bind, Option.some_bind] at h
    have hl : bytes = (if b then 1 else 0) :: l1 := readBool_eq_some hrb
    cases l1 with
    | nil => simp at h
    | cons r l2 =>
      cases hru : readU32 l2 with
      | none => simp [hru] at h
      | some q =>
        rcases q with ⟨dn, l3⟩
        simp only [hru, Option.some_bind] at h
        cases hrd : readBytes dn l3 with
        | none => simp [hrd] at h
        | some q2 =>
          rcases q2 with ⟨d, l4⟩
          simp only [hrd, Option.some_bind] at h
          cases hru2 : readU32 l4 with
          | none => simp [hru2] at h
          | some q3 =>
            rcases q3 with ⟨tn, l5⟩
            simp only [hru2, Option.some_bind] at h
            cases hrt : readBytes tn l5 with
            | none => simp [hrt] at h
            | some q4 =>
              rcases q4 with ⟨t, l6⟩
              simp only [hrt, Option.some_bind, Option.some.injEq,
                Prod.mk.injEq] at h
              obtain ⟨ha, hrest⟩ := h
              obtain ⟨x1, x2, x3, x4, hl2, hdn⟩ := readU32_eq_some hru
              obtain ⟨hdl, hl3⟩ := readBytes_eq_some hrd
              obtain ⟨y1, y2, y3, y4, hl4, htn⟩ := readU32_eq_some hru2
              obtain ⟨htl, hl5⟩ := readBytes_eq_some hrt
              subst hl hl2 hl3 hl4 hl5 hrest
              have hx : x1 < 256 ∧ x2 < 256 ∧ x3 < 256 ∧ x4 < 256 := by
                refine ⟨hb _ ?_, hb _ ?_, hb _ ?_, hb _ ?_⟩ <;> simp
              have hy : y1 < 256 ∧ y2 < 256 ∧ y3 < 256 ∧ y4 < 256 := by
                refine ⟨hb _ ?_, hb _ ?_, hb _ ?_, hb _ ?_⟩ <;> simp
              subst ha
              simp [serialize, hdl, hdn, htl, htn,
                u32le_encode _ _ _ _ hx.1 hx.2.1 hx.2.2.1 hx.2.2.2,
                u32le_encode _ _ _ _ hy.1 hy.2.1 hy.2.2.1 hy.2.2.2]


lemma create_account_eq_some {p p1 : AccountInfo} {pid : Pubkey}
    (h : create_account p pid = some p1) :
    p.data = [] ∧ p1 = { p with owner := pid, data := List.replicate account_len 0 } := by
  unfold create_account at h
  split at h
  · next he => simp_all [List.isEmpty_iff]
  · exact absurd h (by simp)

lemma serialize_into_eq_some {b buf d2 : List Nat}
    (h : serialize_into b buf = some d2) :
    b.length ≤ buf.length ∧ d2 = b ++ buf.drop b.length ∧ d2.length = buf.length := by
  unfold serialize_into at h
  split at h
  · next hle =>
      simp only [Option.some.injEq] at h
      subst h
      refine ⟨hle, rfl, ?_⟩
      simp only [List.length_append, List.length_drop]
      omega
  · exact absurd h (by simp)

lemma try_from_slice_zeroed :
    try_from_slice_unchecked (List.replicate account_len 0) = some ⟨false, 0, [], []⟩ := by
  rfl

lemma add_review_ok_iff (pid : Pubkey) (i p s : AccountInfo)
    (rest : List AccountInfo) (t : List Nat) (r : Nat) (d : List Nat)
    (accts' : List AccountInfo) :
    add_review pid (i :: p :: s :: rest) t r d = (.ok, accts') ↔
      i.is_signer = false ∧ p.key = .derived i.key t pid ∧ 1 ≤ r ∧ r ≤ 10 ∧
      p.data = [] ∧
      ∃ d2, serialize_into (serialize ⟨true, r, d, t⟩)
              (List.replicate account_len 0) = some d2 ∧
        accts' = i :: { p with owner := pid, data := d2 } :: s :: rest := by
  constructor
  · intro h
    simp only [add_review, find_program_address] at h
    split at h
    · next hs => simp at h
    · next hs =>
      split at h
      · next hk => simp at h
      · next hk =>
        split at h
        · next hr => simp at h
        · next hr =>
          cases hca : create_account p pid with
          | none => rw [hca] at h; simp at h
          | some pda1 =>
            rw [hca] at h
            obtain ⟨hdata, hpda1⟩ := create_account_eq_some hca
            subst hpda1
            dsimp only [] at h
            rw [try_from_slice_zeroed] at h
            dsimp only [] at h
            simp only [Bool.false_eq_true, if_false] at h
            cases hsi : serialize_into (serialize ⟨true, r, d, t⟩)
                (List.replicate account_len 0) with
            | none => rw [hsi] at h; simp at h
            | some d2 =>
              rw [hsi] at h
              dsimp only [] at h
              simp only [Prod.mk.injEq] at h
              refine ⟨by simpa using hs, by tauto, by omega, by omega, hdata,
                d2, rfl, h.2.symm⟩
  · rintro ⟨hs, hk, hr1, hr2, hdata, d2, hsi, hacc⟩
    subst hacc
    simp only [add_review, find_program_address, hs, if_false, Bool.false_eq_true]
    rw [if_neg (by simp [hk]), if_neg (by omega)]
    have hca : create_account p pid
        = some { p with owner := pid, data := List.replicate account_len 0 } := by
      simp [create_account, hdata]
    rw [hca]
    dsimp only []
    rw [try_from_slice_zeroed]
    dsimp only []
    simp only [Bool.false_eq_true, if_false]
    rw [hsi]

lemma update_review_ok_iff (pid : Pubkey) (i p : AccountInfo)
    (rest : List AccountInfo) (t : List Nat) (r : Nat) (d : List Nat)
    (accts' : List AccountInfo) :
    update_review pid (i :: p :: rest) t r d = (.ok, accts') ↔
      p.owner = pid ∧ i.is_signer = true ∧
      ∃ st, try_from_slice_unchecked p.data = some st ∧
        p.key = .derived i.key st.title pid ∧ st.is_initialized = true ∧
        1 ≤ r ∧ r ≤ 10 ∧
        ∃ d2, serialize_into (serialize ⟨true, r, d, st.title⟩) p.data = some d2 ∧
          accts' = i :: { p with data := d2 } :: rest := by
  constructor
  · intro h
    simp only [update_review, find_program_address] at h
    split at h
    · next ho => simp at h
    · next ho =>
      split at h
      · next hs => simp at h
      · next hs =>
        cases hdec : try_from_slice_unchecked p.data with
        | none => rw [hdec] at h; simp at h
        | some st =>
          rw [hdec] at h
          rcases st with ⟨b, r0, d0, t0⟩
          dsimp only [] at h
          split at h
          · next hk => simp at h
          · next hk =>
            split at h
            · next hi => simp at h
            · next hi =>
              have hb : b = true := by
                by_contra hb
                exact hi (by simpa using hb)
              subst hb
              split at h
              · next hr => simp at h
              · next hr =>
                cases hsi : serialize_into (serialize ⟨true, r, d, t0⟩) p.data with
                | none => rw [hsi] at h; simp at h
                | some d2 =>
                  rw [hsi] at h
                  dsimp only [] at h
                  simp only [Prod.mk.injEq] at h
                  refine ⟨by tauto, by simpa using hs, ⟨true, r0, d0, t0⟩, rfl,
                    by tauto, rfl, by omega, by omega, d2, hsi, h.2.symm⟩
  · rintro ⟨ho, hs, st, hdec, hk, hi, hr1, hr2, d2, hsi, hacc⟩
    rcases st with ⟨b, r0, d0, t0⟩
    simp only [] at hi
    subst hi
    subst hacc
    have hcond : ¬(10 < r ∨ r = 0) := by omega
    simp [update_review, find_program_address, ho, hs, hdec, hk, hcond, hsi]

lemma update_review_frame (pid : Pubkey) (accts : List AccountInfo)
    (t : List Nat) (r : Nat) (d : List Nat) :
    (update_review pid accts t r d).1 = .ok
      ∨ (update_review pid accts t r d).2 = accts := by
  rcases accts with _ | ⟨i, _ | ⟨p, rest⟩⟩
  · right; rfl
  · right; rfl
  · simp only [update_review, find_program_address]
    split
    · right; rfl
    · split
      · right; rfl
      · split
        · right; rfl
        · split
          · right; rfl
          · split
            · right; rfl
            · split
              · right; rfl
              · split
                · right; rfl
                · left; rfl

lemma add_review_shape (pid : Pubkey) (i p s : AccountInfo)
    (rest : List AccountInfo) (t : List Nat) (r : Nat) (d : List Nat) :
    ((add_review pid (i :: p :: s :: rest) t r d).1 = .err .BorshWriteOverflow
      ∧ (add_review pid (i :: p :: s :: rest) t r d).2
          = i :: { p with owner := pid, data := List.replicate account_len 0 }
              :: s :: rest)
    ∨ ((add_review pid (i :: p :: s :: rest) t r d).1 = .ok
        ∧ ∃ d2, (add_review pid (i :: p :: s :: rest) t r d).2
            = i :: { p with owner := pid, data := d2 } :: s :: rest)
    ∨ ((add_review pid (i :: p :: s :: rest) t r d).1 ≠ .ok
        ∧ (add_review pid (i :: p :: s :: rest) t r d).1 ≠ .err .BorshWriteOverflow
        ∧ (add_review pid (i :: p :: s :: rest) t r d).2 = i :: p :: s :: rest) := by
  simp only [add_review, find_program_address]
  split
  · right; right; exact ⟨by simp, by simp, rfl⟩
  · split
    · right; right; exact ⟨by simp, by simp, rfl⟩
    · split
      · right; right; exact ⟨by simp, by simp, rfl⟩
      · cases hca : create_account p pid with
        | none => right; right; exact ⟨by simp, by simp, rfl⟩
        | some pda1 =>
          obtain ⟨hdata, hpda1⟩ := create_account_eq_some hca
          subst hpda1
          dsimp only []
          rw [try_from_slice_zeroed]
          dsimp only []
          simp only [Bool.false_eq_true, if_false]
          split
          · left; exact ⟨rfl, rfl⟩
          · next d2 _ =>
              right; left; exact ⟨rfl, d2, rfl⟩

lemma add_review_err_set (pid : Pubkey) (accts : List AccountInfo)
    (t : List Nat) (r : Nat) (d : List Nat) (e : ProgErr)
    (h : (add_review pid accts t r d).1 = .err e) :
    e = .NotEnoughAccountKeys ∨ e = .MissingRequiredSignuture
    ∨ e = .InvalidArgument ∨ (e = .InvalidRating ∧ (10 < r ∨ r < 1))
    ∨ e = .AccountAlreadyInUse ∨ e = .AccountAlreadyInitialized
    ∨ e = .BorshWriteOverflow := by
  rcases accts with _ | ⟨i, _ | ⟨p, _ | ⟨s, rest⟩⟩⟩
  · simp [add_review] at h; tauto
  · simp [add_review] at h; tauto
  · simp [add_review] at h; tauto
  · simp only [add_review, find_program_address] at h
    split at h
    · simp at h; tauto
    · split at h
      · simp at h; tauto
      · split at h
        · next hr => simp at h; subst h; tauto
        · split at h
          · simp at h; tauto
          · split at h
            · simp at h
            · split at h
              · simp at h; tauto
              · split at h
                · simp at h; tauto
                · simp at h

lemma update_review_err_set (pid : Pubkey) (accts : List AccountInfo)
    (t : List Nat) (r : Nat) (d : List Nat) (e : ProgErr)
    (h : (update_review pid accts t r d).1 = .err e) :
    e = .NotEnoughAccountKeys ∨ e = .IllegalOwner
    ∨ e = .MissingRequiredSignuture ∨ e = .Custom .InvalidPDA
    ∨ e = .Custom .UninitializedAccount
    ∨ (e = .Custom .InvalidRating ∧ (10 < r ∨ r < 1))
    ∨ e = .BorshWriteOverflow := by
  rcases accts with _ | ⟨i, _ | ⟨p, rest⟩⟩
  · simp [update_review] at h; tauto
  · simp [update_review] at h; tauto
  · simp only [update_review, find_program_address] at h
    split at h
    · simp at h; tauto
    · split at h
      · simp at h; tauto
      · split at h
        · simp at h
        · split at h
          · simp at h; tauto
          · split at h
            · simp at h; tauto
            · split at h
              · next hr => simp at h; subst h; simp; omega
              · split at h
                · simp at h; tauto
                · simp at h


lemma try_from_slice_serialize_append (a : AccountState) (extra : List Nat)
    (hd : a.description.length < 4294967296)
    (ht : a.title.length < 4294967296) :
    try_from_slice_unchecked (serialize a ++ extra) = some a := by
  simp [try_from_slice_unchecked, deserialize_serialize a extra hd ht]

lemma serialize_length (a : AccountState) :
    (serialize a).length = 10 + a.description.length + a.title.length := by
  simp [serialize, u32le]
  omega

/-- Claim C1 (code bug witness): `add_review`'s signer check is inverted.
The source (lib.rs line 59) reads `if initializer.is_signer { return
Err(MissingRequiredSignuture) }`: a create call whose author DID sign
fails with the missing-signature error, while an otherwise identical
call whose author did NOT sign passes the check and succeeds — the
opposite of the claim (and of the same check in `update_review`). -/
theorem add_review_signer_check_inverted :
    add_review samplePid [sampleAuthorSigned, samplePdaFresh, sampleSys]
        sampleTitle 5 [9]
      = (.err .MissingRequiredSignuture,
         [sampleAuthorSigned, samplePdaFresh, sampleSys])
    ∧ sampleAuthorSigned.is_signer = true
    ∧ (add_review samplePid [sampleAuthorUnsigned, samplePdaFresh, sampleSys]
        sampleTitle 5 [9]).1 = .ok
    ∧ sampleAuthorUnsigned.is_signer = false := by
  exact ⟨by decide, rfl, by decide, rfl⟩

/-- Claim C8: borsh round-trip for the record.  Deserializing a
serialized record yields the record back (whenever the string lengths
fit the 4-byte borsh length prefix), and serializing the record decoded
from a well-formed byte sequence (bytes below 256, decoded exactly to
its end) reproduces the bytes. -/
theorem record_serialization_round_trip :
    (∀ a : AccountState, a.description.length < 4294967296 →
        a.title.length < 4294967296 →
      deserialize (serialize a) = some (a, [])
      ∧ try_from_slice_unchecked (serialize a) = some a)
    ∧ ∀ (bytes : List Nat) (a : AccountState), (∀ x ∈ bytes, x < 256) →
        deserialize bytes = some (a, []) → serialize a = bytes := by
  constructor
  · intro a hd ht
    have h := deserialize_serialize a [] hd ht
    rw [List.append_nil] at h
    exact ⟨h, by simp [try_from_slice_unchecked, h]⟩
  · intro bytes a hb h
    simpa using serialize_deserialize hb h

/-- Witness for C8 at a concrete record and its byte image. -/
theorem record_serialization_round_trip_witness :
    (deserialize (serialize sampleStoredState) = some (sampleStoredState, [])
      ∧ try_from_slice_unchecked (serialize sampleStoredState)
          = some sampleStoredState)
    ∧ serialize sampleStoredState = serialize sampleStoredState :=
  ⟨record_serialization_round_trip.1 sampleStoredState (by decide) (by decide),
   record_serialization_round_trip.2 (serialize sampleStoredState)
     sampleStoredState (by decide) (by decide)⟩

/-- Claim C10: a call that supplies fewer account handles than the
handler reads (three for `add_review`, two for `update_review`) returns
the `NotEnoughAccountKeys` error — an `Outcome.err`, not a panic — and
leaves the account list unchanged. -/
theorem missing_accounts_error (pid : Pubkey) (accts : List AccountInfo)
    (t : List Nat) (r : Nat) (d : List Nat) :
    (accts.length < 3 →
      add_review pid accts t r d = (.err .NotEnoughAccountKeys, accts))
    ∧ (accts.length < 2 →
      update_review pid accts t r d = (.err .NotEnoughAccountKeys, accts)) := by
  rcases accts with _ | ⟨a, _ | ⟨b, _ | ⟨c, rest⟩⟩⟩ <;>
    refine ⟨fun h => ?_, fun h => ?_⟩ <;>
    first
    | rfl
    | exact absurd h (by simp)

/-- Witness for C10 with a single supplied account. -/
theorem missing_accounts_error_witness :
    add_review samplePid [sampleAuthorSigned] sampleTitle 5 [9]
      = (.err .NotEnoughAccountKeys, [sampleAuthorSigned])
    ∧ update_review samplePid [sampleAuthorSigned] sampleTitle 5 [9]
      = (.err .NotEnoughAccountKeys, [sampleAuthorSigned]) :=
  ⟨(missing_accounts_error samplePid [sampleAuthorSigned] sampleTitle 5 [9]).1
      (by decide),
   (missing_accounts_error samplePid [sampleAuthorSigned] sampleTitle 5 [9]).2
      (by decide)⟩

/-- Claim C4: ratings outside [1,10] are rejected with the spec's
`InvalidRating` error kind by both handlers, with the account list
returned untouched (the check precedes any mutation); ratings inside
[1,10] never produce an `InvalidRating`-kind error in either handler.
For create, "reached" means the preceding (inverted) signer check and
address check passed; for update, the owner, signer, decode,
address and initialization checks. -/
theorem rating_bound_enforcement (pid : Pubkey) (i p s : AccountInfo)
    (rest accts : List AccountInfo) (t : List Nat) (r : Nat) (d : List Nat)
    (st : AccountState) :
    (i.is_signer = false → p.key = .derived i.key t pid → (r < 1 ∨ 10 < r) →
      add_review pid (i :: p :: s :: rest) t r d
        = (.err .InvalidRating, i :: p :: s :: rest)
      ∧ specKind .InvalidRating = .InvalidRating)
    ∧ (p.owner = pid → i.is_signer = true →
        try_from_slice_unchecked p.data = some st →
        p.key = .derived i.key st.title pid → st.is_initialized = true →
        (r < 1 ∨ 10 < r) →
        update_review pid (i :: p :: rest) t r d
          = (.err (.Custom .InvalidRating), i :: p :: rest)
        ∧ specKind (.Custom .InvalidRating) = .InvalidRating)
    ∧ (1 ≤ r → r ≤ 10 → ∀ e, (add_review pid accts t r d).1 = .err e →
        specKind e ≠ .InvalidRating)
    ∧ (1 ≤ r → r ≤ 10 → ∀ e, (update_review pid accts t r d).1 = .err e →
        specKind e ≠ .InvalidRating) := by
  refine ⟨?_, ?_, ?_, ?_⟩
  · intro hs hk hr
    refine ⟨?_, rfl⟩
    have h1 : (10 < r ∨ r < 1) := by omega
    have h2 : (10 < r ∨ r = 0) := by omega
    simp [add_review, find_program_address, hs, hk, h1, h2]
  · intro ho hs hdec hk hi hr
    refine ⟨?_, rfl⟩
    rcases st with ⟨b, r0, d0, t0⟩
    simp only [] at hi
    subst hi
    have h1 : (10 < r ∨ r < 1) := by omega
    have h2 : (10 < r ∨ r = 0) := by omega
    simp [update_review, find_program_address, ho, hs, hdec, hk, h1, h2]
  · intro hr1 hr2 e he
    rcases add_review_err_set pid accts t r d e he with
      rfl | rfl | rfl | ⟨rfl, hb⟩ | rfl | rfl | rfl
    · decide
    · decide
    · decide
    · exact absurd hb (by omega)
    · decide
    · decide
    · decide
  · intro hr1 hr2 e he
    rcases update_review_err_set pid accts t r d e he with
      rfl | rfl | rfl | rfl | rfl | ⟨rfl, hb⟩ | rfl
    · decide
    · decide
    · decide
    · decide
    · decide
    · exact absurd hb (by omega)
    · decide

/-- Witness for C4: rating 0 rejected at create, rating 11 rejected at
update, and in-range calls never surface an `InvalidRating`-kind
error (shown on the errors the sample calls do produce). -/
theorem rating_bound_enforcement_witness :
    (add_review samplePid [sampleAuthorUnsigned, samplePdaFresh, sampleSys]
        sampleTitle 0 [9]
      = (.err .InvalidRating, [sampleAuthorUnsigned, samplePdaFresh, sampleSys])
      ∧ specKind .InvalidRating = .InvalidRating)
    ∧ (update_review samplePid [sampleAuthorSigned, samplePdaStored]
        sampleTitle 11 [4]
      = (.err (.Custom .InvalidRating), [sampleAuthorSigned, samplePdaStored])
      ∧ specKind (.Custom .InvalidRating) = .InvalidRating)
    ∧ specKind .MissingRequiredSignuture ≠ .InvalidRating
    ∧ specKind .IllegalOwner ≠ .InvalidRating :=
  ⟨(rating_bound_enforcement samplePid sampleAuthorUnsigned samplePdaFresh
      sampleSys [] [] sampleTitle 0 [9] sampleStoredState).1 rfl (by decide)
      (by decide),
   (rating_bound_enforcement samplePid sampleAuthorSigned samplePdaStored
      sampleSys [] [] sampleTitle 11 [4] sampleStoredState).2.1 (by decide) rfl
      (by decide) (by decide) (by decide) (by decide),
   (rating_bound_enforcement samplePid sampleAuthorSigned samplePdaFresh
      sampleSys [] [sampleAuthorSigned, samplePdaFresh, sampleSys] sampleTitle
      5 [9] sampleStoredState).2.2.1 (by decide) (by decide)
      .MissingRequiredSignuture (by decide),
   (rating_bound_enforcement samplePid sampleAuthorSigned samplePdaFresh
      sampleSys [] [sampleAuthorSigned, samplePdaFresh] sampleTitle
      5 [4] sampleStoredState).2.2.2 (by decide) (by decide)
      .IllegalOwner (by decide)⟩

/-- Claim C5: a caller-supplied slot whose address differs from the
canonically derived one makes `add_review` fail with
`ProgramError::InvalidArgument` and `update_review` with
`ReviewError::InvalidPDA` — both the spec's `InvalidDerivedAddress`
kind — with the accounts untouched.  In particular an update whose
signing identity differs from the identity the slot was derived for
fails this way, because the derivation is injective in the identity. -/
theorem derived_address_check (pid a : Pubkey) (i p s : AccountInfo)
    (rest : List AccountInfo) (t : List Nat) (r : Nat) (d : List Nat)
    (st : AccountState) :
    (i.is_signer = false → p.key ≠ .derived i.key t pid →
      add_review pid (i :: p :: s :: rest) t r d
        = (.err .InvalidArgument, i :: p :: s :: rest)
      ∧ specKind .InvalidArgument = .InvalidDerivedAddress)
    ∧ (p.owner = pid → i.is_signer = true →
        try_from_slice_unchecked p.data = some st →
        p.key ≠ .derived i.key st.title pid →
        update_review pid (i :: p :: rest) t r d
          = (.err (.Custom .InvalidPDA), i :: p :: rest)
        ∧ specKind (.Custom .InvalidPDA) = .InvalidDerivedAddress)
    ∧ (p.owner = pid → i.is_signer = true →
        try_from_slice_unchecked p.data = some st →
        p.key = .derived a st.title pid → i.key ≠ a →
        update_review pid (i :: p :: rest) t r d
          = (.err (.Custom .InvalidPDA), i :: p :: rest)) := by
  have main2 : p.owner = pid → i.is_signer = true →
      try_from_slice_unchecked p.data = some st →
      p.key ≠ .derived i.key st.title pid →
      update_review pid (i :: p :: rest) t r d
        = (.err (.Custom .InvalidPDA), i :: p :: rest) := by
    intro ho hs hdec hk
    have hcond : Pubkey.derived i.key st.title pid ≠ p.key :=
      fun he => hk he.symm
    simp [update_review, find_program_address, ho, hs, hdec, hcond]
  refine ⟨?_, fun ho hs hdec hk => ⟨main2 ho hs hdec hk, rfl⟩, ?_⟩
  · intro hs hk
    refine ⟨?_, rfl⟩
    have hcond : Pubkey.derived i.key t pid ≠ p.key := fun he => hk he.symm
    simp [add_review, find_program_address, hs, hcond]
  · intro ho hs hdec hk hne
    refine main2 ho hs hdec ?_
    rw [hk]
    intro he
    injection he with h1 h2 h3
    exact hne h1.symm

/-- Witness for C5: a creation against a wrongly-addressed slot, an
update against a slot derived for another author, both rejected with
the `InvalidDerivedAddress`-kind errors. -/
theorem derived_address_check_witness :
    (add_review samplePid [sampleAuthorUnsigned, sampleSys, sampleSys]
        sampleTitle 5 [9]
      = (.err .InvalidArgument, [sampleAuthorUnsigned, sampleSys, sampleSys])
      ∧ specKind .InvalidArgument = .InvalidDerivedAddress)
    ∧ (update_review samplePid [sampleAuthorSigned, samplePdaOtherAuthor]
        sampleTitle 10 [4]
      = (.err (.Custom .InvalidPDA),
         [sampleAuthorSigned, samplePdaOtherAuthor])
      ∧ specKind (.Custom .InvalidPDA) = .InvalidDerivedAddress)
    ∧ update_review samplePid [sampleAuthorSigned, samplePdaOtherAuthor]
        sampleTitle 10 [4]
      = (.err (.Custom .InvalidPDA),
         [sampleAuthorSigned, samplePdaOtherAuthor]) :=
  ⟨(derived_address_check samplePid (.base 4) sampleAuthorUnsigned sampleSys
      sampleSys [] sampleTitle 5 [9] sampleStoredState).1 rfl (by decide),
   (derived_address_check samplePid (.base 4) sampleAuthorSigned
      samplePdaOtherAuthor sampleSys [] sampleTitle 10 [4]
      sampleStoredState).2.1 (by decide) rfl (by decide) (by decide),
   (derived_address_check samplePid (.base 4) sampleAuthorSigned
      samplePdaOtherAuthor sampleSys [] sampleTitle 10 [4]
      sampleStoredState).2.2 (by decide) rfl (by decide) (by decide)
      (by decide)⟩

/-- Claim C2: `update_review` ignores the command payload's title
entirely — the call's outcome and effect are identical for any two
payload titles — and its re-derivation and final write use the record's
stored title, so a successful update writes back a record whose title
is the stored one. -/
theorem update_review_uses_stored_title (pid : Pubkey) (i p : AccountInfo)
    (rest : List AccountInfo) (t t2 : List Nat) (r : Nat) (d : List Nat)
    (st : AccountState)
    (hdec : try_from_slice_unchecked p.data = some st) :
    update_review pid (i :: p :: rest) t r d
      = update_review pid (i :: p :: rest) t2 r d
    ∧ ((update_review pid (i :: p :: rest) t r d).1 = .ok →
        ∃ d2, serialize_into (serialize ⟨true, r, d, st.title⟩) p.data = some d2
          ∧ (update_review pid (i :: p :: rest) t r d).2
              = i :: { p with data := d2 } :: rest) := by
  constructor
  · rfl
  · intro hok
    have heq : update_review pid (i :: p :: rest) t r d
        = (.ok, (update_review pid (i :: p :: rest) t r d).2) :=
      Prod.ext hok rfl
    rw [update_review_ok_iff] at heq
    obtain ⟨ho, hs, st2, hdec2, hk, hi, hr1, hr2, d2, hsi, hacc⟩ := heq
    rw [hdec] at hdec2
    injection hdec2 with hst
    subst hst
    exact ⟨d2, hsi, hacc⟩

/-- Witness for C2: an update whose payload titles `[7]` and `[8, 8]`
both differ from the stored title `[1, 2]` behaves identically and
writes the stored title back. -/
theorem update_review_uses_stored_title_witness :
    update_review samplePid [sampleAuthorSigned, samplePdaStored] [7] 10 [4]
      = update_review samplePid [sampleAuthorSigned, samplePdaStored]
          [8, 8] 10 [4]
    ∧ ∃ d2, serialize_into (serialize ⟨true, 10, [4], sampleStoredState.title⟩)
          samplePdaStored.data = some d2
        ∧ (update_review samplePid [sampleAuthorSigned, samplePdaStored]
            [7] 10 [4]).2
            = sampleAuthorSigned :: { samplePdaStored with data := d2 } :: [] :=
  ⟨(update_review_uses_stored_title samplePid sampleAuthorSigned
      samplePdaStored [] [7] [8, 8] 10 [4] sampleStoredState (by decide)).1,
   (update_review_uses_stored_title samplePid sampleAuthorSigned
      samplePdaStored [] [7] [8, 8] 10 [4] sampleStoredState (by decide)).2
      (by decide)⟩

/-- Claim C7: a successful update persists exactly the command's
description and rating while keeping the stored title and the
`is_initialized` flag (which was necessarily `true` already): decoding
the written slot yields `⟨true, r, d, st.title⟩`. -/
theorem update_success_effect (pid : Pubkey) (i p : AccountInfo)
    (rest : List AccountInfo) (t : List Nat) (r : Nat) (d : List Nat)
    (st : AccountState) (accts1 : List AccountInfo)
    (hdec : try_from_slice_unchecked p.data = some st)
    (hd : d.length < 4294967296) (ht : st.title.length < 4294967296)
    (hok : update_review pid (i :: p :: rest) t r d = (.ok, accts1)) :
    st.is_initialized = true ∧
    ∃ d2, accts1 = i :: { p with data := d2 } :: rest
      ∧ try_from_slice_unchecked d2 = some ⟨true, r, d, st.title⟩ := by
  rw [update_review_ok_iff] at hok
  obtain ⟨ho, hs, st2, hdec2, hk, hi, hr1, hr2, d2, hsi, hacc⟩ := hok
  rw [hdec] at hdec2
  injection hdec2 with hst
  subst hst
  obtain ⟨hle, hd2, hlen⟩ := serialize_into_eq_some hsi
  refine ⟨hi, d2, hacc, ?_⟩
  rw [hd2]
  exact try_from_slice_serialize_append ⟨true, r, d, st.title⟩ _ hd ht

/-- Witness for C7 at a concrete successful update. -/
theorem update_success_effect_witness :
    sampleStoredState.is_initialized = true ∧
    ∃ d2, (update_review samplePid [sampleAuthorSigned, samplePdaStored]
        [7] 10 [4]).2 = sampleAuthorSigned :: { samplePdaStored with data := d2 } :: []
      ∧ try_from_slice_unchecked d2
          = some ⟨true, 10, [4], sampleStoredState.title⟩ :=
  update_success_effect samplePid sampleAuthorSigned samplePdaStored [] [7]
    10 [4] sampleStoredState _ (by decide) (by decide) (by decide)
    (Prod.ext (by decide) rfl)

/-- Claim C9: both handlers write `serialize record` into the start of
the slot's buffer and leave every byte past the serialized length as it
was — for update the tail of the previous record bytes, for create the
tail of the freshly allocated zeroed 1000-byte buffer. -/
theorem serialized_write_shape (pid : Pubkey) (i p s : AccountInfo)
    (rest : List AccountInfo) (t : List Nat) (r : Nat) (d : List Nat)
    (accts1 accts2 : List AccountInfo) :
    (update_review pid (i :: p :: rest) t r d = (.ok, accts1) →
      ∃ st, try_from_slice_unchecked p.data = some st ∧
        (serialize ⟨true, r, d, st.title⟩).length ≤ p.data.length ∧
        accts1 = i :: { p with data := (serialize ⟨true, r, d, st.title⟩ ++ p.data.drop (serialize ⟨true, r, d, st.title⟩).length) } :: rest)
    ∧ (add_review pid (i :: p :: s :: rest) t r d = (.ok, accts2) →
        (serialize ⟨true, r, d, t⟩).length ≤ account_len ∧
        accts2 = i :: { p with owner := pid, data := (serialize ⟨true, r, d, t⟩ ++ (List.replicate account_len 0).drop (serialize ⟨true, r, d, t⟩).length) } :: s :: rest) := by
  constructor
  · intro hok
    rw [update_review_ok_iff] at hok
    obtain ⟨ho, hs, st, hdec, hk, hi, hr1, hr2, d2, hsi, hacc⟩ := hok
    obtain ⟨hle, hd2, hlen⟩ := serialize_into_eq_some hsi
    subst hd2
    exact ⟨st, hdec, hle, hacc⟩
  · intro hok
    rw [add_review_ok_iff] at hok
    obtain ⟨hs, hk, hr1, hr2, hdata, d2, hsi, hacc⟩ := hok
    obtain ⟨hle, hd2, hlen⟩ := serialize_into_eq_some hsi
    subst hd2
    exact ⟨by simpa using hle, hacc⟩

/-- Witness for C9: one successful update and one successful create,
with the post-slot bytes in serialized-record-plus-retained-tail form. -/
theorem serialized_write_shape_witness :
    (∃ st, try_from_slice_unchecked samplePdaStored.data = some st ∧
      (serialize ⟨true, 10, [4], st.title⟩).length ≤ samplePdaStored.data.length ∧
      (update_review samplePid [sampleAuthorSigned, samplePdaStored]
          [7] 10 [4]).2
        = sampleAuthorSigned :: { samplePdaStored with data := (serialize ⟨true, 10, [4], st.title⟩ ++ samplePdaStored.data.drop (serialize ⟨true, 10, [4], st.title⟩).length) } :: [])
    ∧ ((serialize ⟨true, 5, [9], sampleTitle⟩).length ≤ account_len ∧
      (add_review samplePid [sampleAuthorUnsigned, samplePdaFresh, sampleSys]
          sampleTitle 5 [9]).2
        = sampleAuthorUnsigned :: { samplePdaFresh with owner := samplePid, data := (serialize ⟨true, 5, [9], sampleTitle⟩ ++ (List.replicate account_len 0).drop (serialize ⟨true, 5, [9], sampleTitle⟩).length) } :: sampleSys :: []) :=
  ⟨(serialized_write_shape samplePid sampleAuthorSigned samplePdaStored
      sampleSys [] [7] 10 [4] _ []).1 (Prod.ext (by decide) rfl),
   (serialized_write_shape samplePid sampleAuthorUnsigned samplePdaFresh
      sampleSys [] sampleTitle 5 [9] [] _).2 (Prod.ext (by decide) rfl)⟩

/-- Claim C6: after a successful create, a second create with the same
arguments fails — at the allocation step, whose `create_account` rejects
the now-existing slot — returning `AccountAlreadyInUse` with the
accounts (hence the first call's stored description and rating, still
decodable from the slot) unchanged. -/
theorem no_double_initialization (pid : Pubkey)
    (accts accts1 : List AccountInfo) (t : List Nat) (r : Nat)
    (d : List Nat)
    (h1 : add_review pid accts t r d = (.ok, accts1)) :
    add_review pid accts1 t r d = (.err .AccountAlreadyInUse, accts1)
    ∧ ∃ i p s rest, accts1 = i :: p :: s :: rest
        ∧ try_from_slice_unchecked p.data = some ⟨true, r, d, t⟩ := by
  rcases accts with _ | ⟨i, _ | ⟨p, _ | ⟨s, rest⟩⟩⟩
  · simp [add_review] at h1
  · simp [add_review] at h1
  · simp [add_review] at h1
  · rw [add_review_ok_iff] at h1
    obtain ⟨hs, hk, hr1, hr2, hdata, d2, hsi, hacc⟩ := h1
    obtain ⟨hle, hd2, hlen⟩ := serialize_into_eq_some hsi
    subst hacc
    have hlen1000 : d2.length = account_len := by simpa using hlen
    have hd2ne : ¬ d2.isEmpty = true := by
      simp only [List.isEmpty_iff]
      intro h0
      rw [h0] at hlen1000
      simp [account_len] at hlen1000
    have hserb : (serialize (⟨true, r, d, t⟩ : AccountState)).length
        = 10 + d.length + t.length := serialize_length _
    have hbound : 10 + d.length + t.length ≤ 1000 := by
      rw [← hserb]
      simpa [account_len] using hle
    constructor
    · simp only [add_review, find_program_address]
      rw [if_neg (by simp [hs]), if_neg (by simp [hk]), if_neg (by omega)]
      have hca : create_account { p with owner := pid, data := d2 } pid
          = none := by
        simp [create_account, hd2ne]
      rw [hca]
    · refine ⟨i, _, s, rest, rfl, ?_⟩
      rw [hd2]
      exact try_from_slice_serialize_append ⟨true, r, d, t⟩ _
        (by simp; omega) (by simp; omega)

/-- Witness for C6: the sample create succeeds, and replaying it fails
with `AccountAlreadyInUse`, the stored record still decoding to the
first call's values. -/
theorem no_double_initialization_witness :
    add_review samplePid
        ((add_review samplePid [sampleAuthorUnsigned, samplePdaFresh, sampleSys]
          sampleTitle 5 [9]).2) sampleTitle 5 [9]
      = (.err .AccountAlreadyInUse,
         (add_review samplePid [sampleAuthorUnsigned, samplePdaFresh, sampleSys]
          sampleTitle 5 [9]).2)
    ∧ ∃ i p s rest,
        (add_review samplePid [sampleAuthorUnsigned, samplePdaFresh, sampleSys]
          sampleTitle 5 [9]).2 = i :: p :: s :: rest
        ∧ try_from_slice_unchecked p.data = some ⟨true, 5, [9], sampleTitle⟩ :=
  no_double_initialization samplePid
    [sampleAuthorUnsigned, samplePdaFresh, sampleSys] _ sampleTitle 5 [9]
    (Prod.ext (by decide) rfl)

/-- Claim C3 counterexample: a create call that passes every check but
whose record (description of length 1000) exceeds the 1000-byte slot
capacity returns an error, yet the slot is NOT as it was before the
call — the allocation step already replaced the empty data with a
zeroed 1000-byte buffer before the failing serialization step. -/
theorem create_error_can_leave_allocated_slot :
    (add_review samplePid [sampleAuthorUnsigned, samplePdaFresh, sampleSys]
        sampleTitle 5 (List.replicate 1000 9)).1 = .err .BorshWriteOverflow
    ∧ (add_review samplePid [sampleAuthorUnsigned, samplePdaFresh, sampleSys]
        sampleTitle 5 (List.replicate 1000 9)).2
      ≠ [sampleAuthorUnsigned, samplePdaFresh, sampleSys] := by
  exact ⟨by decide, by decide⟩

/-- Claim C3 as amended: update-record errors leave the accounts
exactly as supplied, and a successful update's only effect is the one
serialization write into the slot's data; create-record errors other
than the final serialization-write failure leave the accounts exactly
as supplied, a create failing at that final write leaves the freshly
allocated zeroed slot, and a successful create's effects are the
allocation plus the one serialization write. -/
theorem handlers_write_discipline (pid : Pubkey) (accts : List AccountInfo)
    (t : List Nat) (r : Nat) (d : List Nat) (e : ProgErr) :
    ((update_review pid accts t r d).1 = .err e →
      (update_review pid accts t r d).2 = accts)
    ∧ ((update_review pid accts t r d).1 = .ok →
      ∃ i p rest d2, accts = i :: p :: rest ∧
        (update_review pid accts t r d).2 = i :: { p with data := d2 } :: rest)
    ∧ ((add_review pid accts t r d).1 = .err e → e ≠ .BorshWriteOverflow →
      (add_review pid accts t r d).2 = accts)
    ∧ ((add_review pid accts t r d).1 = .err .BorshWriteOverflow →
      ∃ i p s rest, accts = i :: p :: s :: rest ∧
        (add_review pid accts t r d).2
          = i :: { p with owner := pid, data := List.replicate account_len 0 }
              :: s :: rest)
    ∧ ((add_review pid accts t r d).1 = .ok →
      ∃ i p s rest d2, accts = i :: p :: s :: rest ∧
        (add_review pid accts t r d).2
          = i :: { p with owner := pid, data := d2 } :: s :: rest) := by
  refine ⟨?_, ?_, ?_, ?_, ?_⟩
  · intro he
    rcases update_review_frame pid accts t r d with hok | hsame
    · rw [he] at hok; exact absurd hok (by simp)
    · exact hsame
  · intro hok
    rcases accts with _ | ⟨i, _ | ⟨p, rest⟩⟩
    · simp [update_review] at hok
    · simp [update_review] at hok
    · have heq : update_review pid (i :: p :: rest) t r d
          = (.ok, (update_review pid (i :: p :: rest) t r d).2) :=
        Prod.ext hok rfl
      rw [update_review_ok_iff] at heq
      obtain ⟨ho, hs, st, hdec, hk, hi, hr1, hr2, d2, hsi, hacc⟩ := heq
      exact ⟨i, p, rest, d2, rfl, hacc⟩
  · intro he hne
    rcases accts with _ | ⟨i, _ | ⟨p, _ | ⟨s, rest⟩⟩⟩
    · rfl
    · rfl
    · rfl
    · rcases add_review_shape pid i p s rest t r d with
        ⟨hb, _⟩ | ⟨hok, _⟩ | ⟨_, _, hsame⟩
      · rw [he] at hb
        exact absurd (by injection hb) hne
      · rw [he] at hok; exact absurd hok (by simp)
      · exact hsame
  · intro he
    rcases accts with _ | ⟨i, _ | ⟨p, _ | ⟨s, rest⟩⟩⟩
    · simp [add_review] at he
    · simp [add_review] at he
    · simp [add_review] at he
    · rcases add_review_shape pid i p s rest t r d with
        ⟨hb, hpost⟩ | ⟨hok, _⟩ | ⟨_, hnb, _⟩
      · exact ⟨i, p, s, rest, rfl, hpost⟩
      · rw [he] at hok; exact absurd hok (by simp)
      · exact absurd he hnb
  · intro hok
    rcases accts with _ | ⟨i, _ | ⟨p, _ | ⟨s, rest⟩⟩⟩
    · simp [add_review] at hok
    · simp [add_review] at hok
    · simp [add_review] at hok
    · rcases add_review_shape pid i p s rest t r d with
        ⟨hb, _⟩ | ⟨_, d2, hpost⟩ | ⟨hno, _, _⟩
      · rw [hok] at hb; exact absurd hb (by simp)
      · exact ⟨i, p, s, rest, d2, rfl, hpost⟩
      · exact absurd hok hno

/-- Witness for the amended C3: a rejected update leaves its accounts
unchanged, a successful update rewrites only the slot data, a rejected
create (signer check) leaves its accounts unchanged, and a successful
create ends with author, rewritten slot, system account. -/
theorem handlers_write_discipline_witness :
    (update_review samplePid [sampleAuthorSigned, samplePdaStored]
        sampleTitle 0 [4]).2 = [sampleAuthorSigned, samplePdaStored]
    ∧ (∃ i p rest d2,
        [sampleAuthorSigned, samplePdaStored] = i :: p :: rest ∧
        (update_review samplePid [sampleAuthorSigned, samplePdaStored]
          sampleTitle 10 [4]).2 = i :: { p with data := d2 } :: rest)
    ∧ (add_review samplePid [sampleAuthorSigned, samplePdaFresh, sampleSys]
        sampleTitle 5 [9]).2 = [sampleAuthorSigned, samplePdaFresh, sampleSys]
    ∧ (∃ i p s rest d2,
        [sampleAuthorUnsigned, samplePdaFresh, sampleSys]
          = i :: p :: s :: rest ∧
        (add_review samplePid [sampleAuthorUnsigned, samplePdaFresh, sampleSys]
          sampleTitle 5 [9]).2
          = i :: { p with owner := samplePid, data := d2 } :: s :: rest) :=
  ⟨(handlers_write_discipline samplePid [sampleAuthorSigned, samplePdaStored]
      sampleTitle 0 [4] (.Custom .InvalidRating)).1 (by decide),
   (handlers_write_discipline samplePid [sampleAuthorSigned, samplePdaStored]
      sampleTitle 10 [4] (.Custom .InvalidRating)).2.1 (by decide),
   (handlers_write_discipline samplePid
      [sampleAuthorSigned, samplePdaFresh, sampleSys] sampleTitle 5 [9]
      .MissingRequiredSignuture).2.2.1 (by decide) (by decide),
   (handlers_write_discipline samplePid
      [sampleAuthorUnsigned, samplePdaFresh, sampleSys] sampleTitle 5 [9]
      .MissingRequiredSignuture).2.2.2.2 (by decide)⟩

end ReviewProgram
